import Mathlib

/-!
# Verification of the pickemall core against its specification

Shallow embedding of the repository's core components:

* the JPEG marker scanner `readJPEGDimensions` (images.go),
* the crop identity hasher `Crop.ID` (MD5 over the `%.2f`-formatted rectangle),
* the operation model (`Operation.UnmarshalJSON`) and its record encoder,
* the batch executor (`OperationExecutor.Exec` / `executeCrop` / `executePick`),
* the codec boundary `ImagingCropper.Crop`.

Byte streams are `List Nat` (values < 256 where it matters), machine
integers are `Nat`/`Int` with explicit `% 2^w` at overflow points, the file
system is an explicit association list, and Go's `float64` fields are
modelled by exact rationals `ℚ` (the formatting step `%.2f` is modelled as
correctly-rounded two-decimal formatting of the exact value).
-/

set_option autoImplicit false
set_option maxRecDepth 8192

namespace Pickemall

/-! ## JPEG marker scanner (images.go, `readJPEGDimensions`)

The Go function reads from an `os.File`.  A regular-file `Read(p)` returns
`min (len p) available` bytes; it returns `io.EOF` exactly when zero bytes
were read and `len p > 0`; a zero-length read succeeds.  A partial read
into `buf[:]` leaves the untouched cell of `buf` at its previous (stale)
value, which the model threads explicitly.  `Seek(n, SEEK_CUR)` with a
non-negative offset always succeeds on a regular file, also past EOF. -/

/-- Result of the scanner, including the two Go runtime behaviours that are
not `error` returns: an index-out-of-range panic, and the fuel marker used
to make the Go `for` loop structurally recursive (never reached with the
fuel supplied by `readJPEGDimensions`). -/
inductive ScanResult where
  /-- `return width, height, nil` -/
  | ok (width height : Nat)
  /-- "failed to read SOI marker" -/
  | errSOI
  /-- "not a valid JPEG file" -/
  | errNotJPEG
  /-- "invalid JPEG format" (marker byte not 0xFF) -/
  | errMalformed
  /-- a propagated `file.Read` error (`io.EOF`) -/
  | errRead
  /-- Go runtime panic: slice bounds out of range on the segment buffer -/
  | panicOOB
  /-- out of fuel (modelling artifact only) -/
  | fuelOut
  deriving DecidableEq, Repr

/-- Model of `file.Read(buf[:])` (2 bytes) against the remaining stream.
`none` is the zero-bytes-read `io.EOF` case; a 1-byte partial read keeps
the stale `buf[1]` value `b1`. -/
def read2 (rem : List Nat) (b1 : Nat) : Option (Nat × Nat × List Nat) :=
  match rem with
  | [] => none
  | [x] => some (x, b1, [])
  | x :: y :: r => some (x, y, r)

/-- The padding-skip loop `for buf[1] == 0xFF { file.Read(buf[1:2]) }`:
consume bytes while the current marker-type byte is `0xFF`; `none` is an
`io.EOF` from the 1-byte read. -/
def skipPadding : List Nat → Nat → Option (Nat × List Nat)
  | [], b1 => if b1 = 255 then none else some (b1, [])
  | x :: r, b1 => if b1 = 255 then skipPadding r x else some (b1, x :: r)

/-- `binary.BigEndian.Uint16` of two stream bytes. -/
def be16 (hi lo : Nat) : Nat := hi * 256 + lo

/-- The `uint16` subtraction `length - 2` of the Go code (wraps modulo
`2^16`, so a declared length smaller than 2 underflows to 65534/65535). -/
def lenMinus2 (len : Nat) : Nat := (len % 65536 + 65534) % 65536

/-- `segment := make([]byte, n)` (zero-filled) followed by one
`file.Read(segment)`: `none` is the `io.EOF` of a read with `n > 0`
against an exhausted stream; otherwise the front of `segment` holds the
`min n rem.length` bytes actually read and the rest stays zero. -/
def readSegment (n : Nat) (rem : List Nat) : Option (List Nat × List Nat) :=
  if n = 0 then some ([], rem)
  else if rem.isEmpty then none
  else some (rem.take n ++ List.replicate (n - rem.length) 0, rem.drop n)

/-- Lines 143–146 of images.go: index the segment buffer.  The Go slice
expression `segment[1:3]` panics unless `3 ≤ cap(segment)` and
`segment[3:5]` panics unless `5 ≤ cap(segment)`; height is the big-endian
16-bit value at payload offsets 1–2, width the one at offsets 3–4. -/
def sofPayload (seg : List Nat) : ScanResult :=
  if seg.length < 3 then .panicOOB
  else if seg.length < 5 then .panicOOB
  else .ok (be16 (seg.getD 3 0) (seg.getD 4 0)) (be16 (seg.getD 1 0) (seg.getD 2 0))

/-- The body of the loop after the marker-type byte `t` is known: either
the Start-Of-Frame branch (read length, read payload, index it) or the
skip branch (read length, seek `length - 2` forward and continue via the
continuation `k`, with `buf[1]` left holding the low length byte). -/
def sofOrSkip (k : List Nat → Nat → ScanResult) (t : Nat) (rem2 : List Nat) : ScanResult :=
  if 192 ≤ t ∧ t ≤ 195 then
    match read2 rem2 t with
    | none => .errRead
    | some (l0, l1, rem3) =>
      match readSegment (lenMinus2 (be16 l0 l1)) rem3 with
      | none => .errRead
      | some (seg, _) => sofPayload seg
  else
    match read2 rem2 t with
    | none => .errRead
    | some (l0, l1, rem3) =>
      k (rem3.drop (lenMinus2 (be16 l0 l1))) l1

/-- The segment-walking `for` loop of `readJPEGDimensions`, entered just
after the SOI marker.  `b1` is the stale content of `buf[1]` from the
previous read.  Fuel only bounds the recursion; each iteration either
consumes stream bytes or stops. -/
def scanLoop : Nat → List Nat → Nat → ScanResult
  | 0, _, _ => .fuelOut
  | fuel + 1, rem, b1 =>
    match read2 rem b1 with
    | none => .errRead
    | some (m0, m1, rem1) =>
      if m0 ≠ 255 then .errMalformed
      else
        match skipPadding rem1 m1 with
        | none => .errRead
        | some (t, rem2) => sofOrSkip (scanLoop fuel) t rem2

/-- `readJPEGDimensions` on a whole byte stream: check the SOI marker
`FF D8`, then walk the segments.  The fuel `bytes.length + 1` dominates
the iteration count, since every loop pass consumes at least one stream
byte or stops. -/
def readJPEGDimensions (bytes : List Nat) : ScanResult :=
  match read2 bytes 0 with
  | none => .errSOI
  | some (b0, b1, rest) =>
    if b0 = 255 ∧ b1 = 216 then scanLoop (bytes.length + 1) rest b1
    else .errNotJPEG

/-! ### Structured well-formed streams for the functional-correctness claim -/

/-- One non-SOF, length-prefixed segment as the scanner consumes it:
`FF marker l0 l1 payload`. -/
structure SkipSeg where
  marker : Nat
  l0 : Nat
  l1 : Nat
  payload : List Nat

/-- The byte rendering of a skip segment. -/
def SkipSeg.bytes (s : SkipSeg) : List Nat :=
  255 :: s.marker :: s.l0 :: s.l1 :: s.payload

/-- A well-formed non-SOF segment: a real marker byte (not `0xFF`, not in
the SOF range `C0–C3`), byte-valued length field, declared length at least
2, and a payload of exactly `length - 2` bytes. -/
def SkipSeg.WF (s : SkipSeg) : Prop :=
  s.marker < 256 ∧ s.marker ≠ 255 ∧ ¬(192 ≤ s.marker ∧ s.marker ≤ 195) ∧
    s.l0 < 256 ∧ s.l1 < 256 ∧ 2 ≤ be16 s.l0 s.l1 ∧
    s.payload.length = be16 s.l0 s.l1 - 2

instance (s : SkipSeg) : Decidable s.WF := by unfold SkipSeg.WF; infer_instance

/-- Concatenated bytes of a list of skip segments. -/
def segsBytes : List SkipSeg → List Nat
  | [] => []
  | s :: L => s.bytes ++ segsBytes L

theorem segsBytes_length_ge (L : List SkipSeg) : L.length ≤ (segsBytes L).length := by
  induction L with
  | nil => simp [segsBytes]
  | cons s L ih =>
    simp only [segsBytes, List.length_append, List.length_cons, SkipSeg.bytes]
    omega

/-- The padding-skip loop is a no-op when the current marker-type byte is
not `0xFF`. -/
theorem skipPadding_ne (l : List Nat) (b1 : Nat) (h : b1 ≠ 255) :
    skipPadding l b1 = some (b1, l) := by
  cases l with
  | nil => rw [skipPadding, if_neg h]
  | cons x r => rw [skipPadding, if_neg h]

/-- One iteration of the loop on a stream that starts with a marker
`FF m` where `m` is not a padding byte: it hands control to `sofOrSkip`
with the marker-type byte `m`. -/
theorem scanLoop_cons (fuel m : Nat) (rest : List Nat) (b1 : Nat) (hm : m ≠ 255) :
    scanLoop (fuel + 1) (255 :: m :: rest) b1 = sofOrSkip (scanLoop fuel) m rest := by
  rw [scanLoop]
  simp only [read2]
  rw [skipPadding_ne rest m hm, if_neg (fun h => h rfl)]

/-- The skip branch on a stream carrying the two length bytes: consume
them and seek `length - 2` forward. -/
theorem sofOrSkip_skip_cons (k : List Nat → Nat → ScanResult) (t l0 l1 : Nat)
    (rest : List Nat) (hs : ¬(192 ≤ t ∧ t ≤ 195)) :
    sofOrSkip k t (l0 :: l1 :: rest) = k (rest.drop (lenMinus2 (be16 l0 l1))) l1 := by
  rw [sofOrSkip, if_neg hs]
  simp only [read2]

/-- The Start-Of-Frame branch on a stream carrying the two length bytes:
consume them and read the segment buffer. -/
theorem sofOrSkip_sof_cons (k : List Nat → Nat → ScanResult) (t l0 l1 : Nat)
    (rest : List Nat) (ht : 192 ≤ t ∧ t ≤ 195) :
    sofOrSkip k t (l0 :: l1 :: rest) =
      match readSegment (lenMinus2 (be16 l0 l1)) rest with
      | none => .errRead
      | some (seg, _) => sofPayload seg := by
  rw [sofOrSkip, if_pos ht]
  simp only [read2]

/-- Walking one well-formed non-SOF segment consumes exactly its bytes and
continues the loop on the rest of the stream (with `buf[1] = l1`). -/
theorem scanLoop_skip (s : SkipSeg) (hs : s.WF) (fuel : Nat) (R : List Nat) (b1 : Nat) :
    scanLoop (fuel + 1) (s.bytes ++ R) b1 = scanLoop fuel R s.l1 := by
  obtain ⟨-, hm255, hsof, hl0, hl1, hlen, hpay⟩ := hs
  have hlen2 : lenMinus2 (be16 s.l0 s.l1) = s.payload.length := by
    simp only [lenMinus2, be16] at hpay hlen ⊢
    omega
  show scanLoop (fuel + 1) (255 :: s.marker :: s.l0 :: s.l1 :: (s.payload ++ R)) b1 =
    scanLoop fuel R s.l1
  rw [scanLoop_cons fuel s.marker _ b1 hm255,
    sofOrSkip_skip_cons _ s.marker s.l0 s.l1 _ hsof, hlen2, List.drop_left]

/-- Reaching the Start-Of-Frame segment with a payload of at least five
bytes returns the big-endian height at payload offsets 1–2 and width at
offsets 3–4, regardless of what follows the segment. -/
theorem scanLoop_sof (t l0 l1 : Nat) (payload R : List Nat) (b1 fuel : Nat)
    (ht : 192 ≤ t ∧ t ≤ 195) (hl0 : l0 < 256) (hl1 : l1 < 256)
    (hlen : 7 ≤ be16 l0 l1) (hpay : payload.length = be16 l0 l1 - 2) :
    scanLoop (fuel + 1) (255 :: t :: l0 :: l1 :: (payload ++ R)) b1 =
      .ok (be16 (payload.getD 3 0) (payload.getD 4 0))
          (be16 (payload.getD 1 0) (payload.getD 2 0)) := by
  have ht255 : t ≠ 255 := by omega
  have hlen2 : lenMinus2 (be16 l0 l1) = payload.length := by
    simp only [lenMinus2, be16] at hpay hlen ⊢
    omega
  have h5 : 5 ≤ payload.length := by
    simp only [be16] at hlen hpay
    omega
  have hpos : payload.length ≠ 0 := by omega
  have hne : (payload ++ R).isEmpty = false := by
    cases payload with
    | nil => simp at h5
    | cons a l => simp
  have hseg : readSegment (lenMinus2 (be16 l0 l1)) (payload ++ R) =
      some (payload, R) := by
    rw [hlen2]
    unfold readSegment
    rw [if_neg hpos, if_neg (by simp [hne])]
    have h1 : (payload ++ R).take payload.length = payload := List.take_left _ _
    have h2 : (payload ++ R).drop payload.length = R := List.drop_left _ _
    have h3 : payload.length - (payload ++ R).length = 0 := by
      simp [List.length_append]
    rw [h1, h2, h3]
    simp
  show scanLoop (fuel + 1) (255 :: t :: l0 :: l1 :: (payload ++ R)) b1 = _
  rw [scanLoop_cons fuel t _ b1 ht255, sofOrSkip_sof_cons _ t l0 l1 _ ht, hseg]
  show sofPayload payload = _
  unfold sofPayload
  rw [if_neg (by omega : ¬ payload.length < 3), if_neg (by omega : ¬ payload.length < 5)]

/-- With enough fuel, the loop walks any list of well-formed non-SOF
segments and then resolves the SOF segment. -/
theorem scanLoop_through (t l0 l1 : Nat) (payload R : List Nat)
    (ht : 192 ≤ t ∧ t ≤ 195) (hl0 : l0 < 256) (hl1 : l1 < 256)
    (hlen : 7 ≤ be16 l0 l1) (hpay : payload.length = be16 l0 l1 - 2) :
    ∀ (segs : List SkipSeg), (∀ s ∈ segs, s.WF) →
      ∀ (fuel b1 : Nat), segs.length + 1 ≤ fuel →
        scanLoop fuel (segsBytes segs ++ (255 :: t :: l0 :: l1 :: (payload ++ R))) b1 =
          .ok (be16 (payload.getD 3 0) (payload.getD 4 0))
              (be16 (payload.getD 1 0) (payload.getD 2 0)) := by
  intro segs
  induction segs with
  | nil =>
    intro _ fuel b1 hfuel
    obtain ⟨f, rfl⟩ : ∃ f, fuel = f + 1 := ⟨fuel - 1, by omega⟩
    simpa [segsBytes] using scanLoop_sof t l0 l1 payload R b1 f ht hl0 hl1 hlen hpay
  | cons s segs ih =>
    intro hwf fuel b1 hfuel
    obtain ⟨f, rfl⟩ : ∃ f, fuel = f + 1 := ⟨fuel - 1, by omega⟩
    rw [segsBytes, List.append_assoc,
      scanLoop_skip s (hwf s (List.mem_cons_self s segs)) f _ b1]
    exact ih (fun x hx => hwf x (List.mem_cons_of_mem s hx)) f s.l1 (by simp at hfuel; omega)

/-- **C2.** For every byte stream that starts with the SOI marker,
continues with any (possibly empty) list of well-formed non-SOF segments,
and then carries a Start-Of-Frame segment (marker-type byte in `C0–C3`)
whose declared payload has at least 5 bytes, `readJPEGDimensions` returns
exactly the big-endian 16-bit integer at payload offsets 1–2 as the height
and the one at offsets 3–4 as the width.  The suffix `R` after the SOF
payload is completely unconstrained, so the scanner returns at the first
matching frame marker without scanning any later segment. -/
theorem readJPEGDimensions_sof_exact (segs : List SkipSeg) (hsegs : ∀ s ∈ segs, s.WF)
    (t l0 l1 : Nat) (payload R : List Nat)
    (ht : 192 ≤ t ∧ t ≤ 195) (hl0 : l0 < 256) (hl1 : l1 < 256)
    (hlen : 7 ≤ be16 l0 l1) (hpay : payload.length = be16 l0 l1 - 2) :
    readJPEGDimensions
        (255 :: 216 :: (segsBytes segs ++ (255 :: t :: l0 :: l1 :: (payload ++ R)))) =
      .ok (be16 (payload.getD 3 0) (payload.getD 4 0))
          (be16 (payload.getD 1 0) (payload.getD 2 0)) := by
  have hbody : segs.length + 1 ≤
      (255 :: 216 :: (segsBytes segs ++ (255 :: t :: l0 :: l1 :: (payload ++ R)))).length + 1 := by
    have := segsBytes_length_ge segs
    simp only [List.length_cons, List.length_append]
    omega
  simpa [readJPEGDimensions, read2] using
    scanLoop_through t l0 l1 payload R ht hl0 hl1 hlen hpay segs hsegs _ 216 hbody

/-- Witness for C2 at a concrete stream: SOI, one APP-style skip segment
(`FF E0 00 04 07 07`), then SOF0 with declared length 7 and payload
`08 01 02 03 04`, followed by a trailing byte that is never scanned. -/
theorem readJPEGDimensions_sof_exact_witness :
    readJPEGDimensions [255, 216, 255, 224, 0, 4, 7, 7, 255, 192, 0, 7, 8, 1, 2, 3, 4, 9] =
      .ok 772 258 := by
  have h := readJPEGDimensions_sof_exact [⟨224, 0, 4, [7, 7]⟩] (by decide)
    192 0 7 [8, 1, 2, 3, 4] [9] (by decide) (by decide) (by decide) (by decide) (by decide)
  exact h

/-- **C1.** The scanner's central safety contract is violated by the code:
a Start-Of-Frame segment whose declared length is 2 (payload 0 bytes)
drives the Go expression `segment[1:3]` into a slice-bounds panic instead
of a clean error, and a stream truncated mid-SOF-payload (declared length
10, only 5 payload bytes present) silently returns dimensions read from
the zero-filled remainder of the segment buffer instead of failing. -/
theorem readJPEGDimensions_unsafe_on_short_sof :
    readJPEGDimensions [255, 216, 255, 192, 0, 2] = .panicOOB ∧
      readJPEGDimensions [255, 216, 255, 192, 0, 10, 8, 1, 0, 2, 0] = .ok 512 256 := by
  exact ⟨rfl, rfl⟩

/-! ## Crop rectangles and the identity hasher (`Crop`, `Crop.String`, `Crop.ID`)

The Go fields are `float64` fractions in `[0,1]`; they are modelled as
exact rationals.  `fmt.Sprintf("%.2f", v)` prints the value correctly
rounded to two decimals (ties to even), which the model reproduces on the
exact rational value. -/

/-- The crop rectangle: `x`, `y`, `width`, `height` as fractions of the
image dimensions. -/
structure Crop where
  x : ℚ
  y : ℚ
  width : ℚ
  height : ℚ

/-- Round to the nearest integer, ties to even — the rounding used when a
decimal value is formatted with a fixed number of fraction digits. -/
def roundHalfEven (q : ℚ) : ℤ :=
  let f := ⌊q⌋
  let r := q - (f : ℚ)
  if r < 1/2 then f
  else if 1/2 < r then f + 1
  else if f % 2 = 0 then f else f + 1

/-- `fmt.Sprintf("%.2f", q)`: sign, integer part, point, and exactly two
fraction digits. -/
def fmt2 (q : ℚ) : String :=
  let n := (roundHalfEven (q * 100)).natAbs
  let sign := if q < 0 then "-" else ""
  sign ++ toString (n / 100) ++ "." ++ (if n % 100 < 10 then "0" else "") ++ toString (n % 100)

/-- `Crop.String`: `fmt.Sprintf("crop(x=%.2f,y=%.2f,w=%.2f,h=%.2f)", ...)`. -/
def Crop.string (c : Crop) : String :=
  "crop(x=" ++ fmt2 c.x ++ ",y=" ++ fmt2 c.y ++ ",w=" ++ fmt2 c.width ++
    ",h=" ++ fmt2 c.height ++ ")"

/-! ### MD5 (`crypto/md5`), over `Nat` with explicit reduction mod `2^32` -/

/-- Left-rotation of a 32-bit word. -/
def rotl32 (x n : Nat) : Nat := (x * 2 ^ n + x / 2 ^ (32 - n)) % 4294967296

/-- Bitwise complement of a 32-bit word. -/
def not32 (x : Nat) : Nat := Nat.xor x 4294967295

/-- The four MD5 round functions. -/
def md5F (b c d : Nat) : Nat := Nat.lor (Nat.land b c) (Nat.land (not32 b) d)

def md5G (b c d : Nat) : Nat := Nat.lor (Nat.land d b) (Nat.land (not32 d) c)

def md5H (b c d : Nat) : Nat := Nat.xor (Nat.xor b c) d

def md5I (b c d : Nat) : Nat := Nat.xor c (Nat.lor b (not32 d))

/-- The 64 MD5 sine-derived constants `⌊2^32·|sin(i+1)|⌋`. -/
def md5K : List Nat :=
  [0xd76aa478, 0xe8c7b756, 0x242070db, 0xc1bdceee,
   0xf57c0faf, 0x4787c62a, 0xa8304613, 0xfd469501,
   0x698098d8, 0x8b44f7af, 0xffff5bb1, 0x895cd7be,
   0x6b901122, 0xfd987193, 0xa679438e, 0x49b40821,
   0xf61e2562, 0xc040b340, 0x265e5a51, 0xe9b6c7aa,
   0xd62f105d, 0x02441453, 0xd8a1e681, 0xe7d3fbc8,
   0x21e1cde6, 0xc33707d6, 0xf4d50d87, 0x455a14ed,
   0xa9e3e905, 0xfcefa3f8, 0x676f02d9, 0x8d2a4c8a,
   0xfffa3942, 0x8771f681, 0x6d9d6122, 0xfde5380c,
   0xa4beea44, 0x4bdecfa9, 0xf6bb4b60, 0xbebfbc70,
   0x289b7ec6, 0xeaa127fa, 0xd4ef3085, 0x04881d05,
   0xd9d4d039, 0xe6db99e5, 0x1fa27cf8, 0xc4ac5665,
   0xf4292244, 0x432aff97, 0xab9423a7, 0xfc93a039,
   0x655b59c3, 0x8f0ccc92, 0xffeff47d, 0x85845dd1,
   0x6fa87e4f, 0xfe2ce6e0, 0xa3014314, 0x4e0811a1,
   0xf7537e82, 0xbd3af235, 0x2ad7d2bb, 0xeb86d391]

/-- The 64 per-round left-rotation amounts. -/
def md5S : List Nat :=
  [7, 12, 17, 22, 7, 12, 17, 22, 7, 12, 17, 22, 7, 12, 17, 22,
   5, 9, 14, 20, 5, 9, 14, 20, 5, 9, 14, 20, 5, 9, 14, 20,
   4, 11, 16, 23, 4, 11, 16, 23, 4, 11, 16, 23, 4, 11, 16, 23,
   6, 10, 15, 21, 6, 10, 15, 21, 6, 10, 15, 21, 6, 10, 15, 21]

/-- The `g`-th little-endian 32-bit word of a 64-byte chunk. -/
def wordAt (chunk : List Nat) (g : Nat) : Nat :=
  chunk.getD (4 * g) 0 + 256 * chunk.getD (4 * g + 1) 0 +
    65536 * chunk.getD (4 * g + 2) 0 + 16777216 * chunk.getD (4 * g + 3) 0

/-- One MD5 round `i` on the state `(a, b, c, d)`. -/
def md5Round (M : Nat → Nat) (st : Nat × Nat × Nat × Nat) (i : Nat) : Nat × Nat × Nat × Nat :=
  let a := st.1
  let b := st.2.1
  let c := st.2.2.1
  let d := st.2.2.2
  let fg : Nat × Nat :=
    if i < 16 then (md5F b c d, i)
    else if i < 32 then (md5G b c d, (5 * i + 1) % 16)
    else if i < 48 then (md5H b c d, (3 * i + 5) % 16)
    else (md5I b c d, (7 * i) % 16)
  let f2 := (fg.1 + a + md5K.getD i 0 + M fg.2) % 4294967296
  (d, (b + rotl32 f2 (md5S.getD i 0)) % 4294967296, b, c)

/-- Process one 64-byte chunk: 64 rounds, then add the previous state. -/
def md5Chunk (st : Nat × Nat × Nat × Nat) (chunk : List Nat) : Nat × Nat × Nat × Nat :=
  let r := (List.range 64).foldl (md5Round (wordAt chunk)) st
  ((st.1 + r.1) % 4294967296, (st.2.1 + r.2.1) % 4294967296,
   (st.2.2.1 + r.2.2.1) % 4294967296, (st.2.2.2 + r.2.2.2) % 4294967296)

/-- Little-endian 8-byte rendering of a 64-bit length field. -/
def le8 (n : Nat) : List Nat :=
  [n % 256, n / 256 % 256, n / 65536 % 256, n / 16777216 % 256,
   n / 4294967296 % 256, n / 1099511627776 % 256,
   n / 281474976710656 % 256, n / 72057594037927936 % 256]

/-- Little-endian 4-byte rendering of a 32-bit word. -/
def le4 (n : Nat) : List Nat :=
  [n % 256, n / 256 % 256, n / 65536 % 256, n / 16777216 % 256]

/-- MD5 padding: append `0x80`, zero-fill to 56 mod 64, then the message
bit length as a little-endian 64-bit integer. -/
def md5Pad (msg : List Nat) : List Nat :=
  msg ++ 128 :: List.replicate ((119 - msg.length % 64) % 64) 0 ++
    le8 (8 * msg.length % 18446744073709551616)

/-- Split a byte list into 64-byte chunks. -/
def chunks64 (l : List Nat) : List (List Nat) :=
  if h : l.isEmpty then []
  else l.take 64 :: chunks64 (l.drop 64)
termination_by l.length
decreasing_by
  have hne : l ≠ [] := by simpa using h
  have hpos : 0 < l.length := List.length_pos.mpr hne
  simp only [List.length_drop]
  omega

/-- The MD5 digest of a byte message: 16 bytes. -/
def md5Sum (msg : List Nat) : List Nat :=
  let st := (chunks64 (md5Pad msg)).foldl md5Chunk
    (1732584193, 4023233417, 2562383102, 271733878)
  le4 st.1 ++ le4 st.2.1 ++ le4 st.2.2.1 ++ le4 st.2.2.2

/-! ### `fmt.Sprintf("%x", digest)`: lowercase hex rendering -/

/-- The sixteen lowercase hexadecimal digits (the `hextable` constant of
`encoding/hex`). -/
def hexDigits : List Char := "0123456789abcdef".data

theorem hexDigits_length : hexDigits.length = 16 := by decide

/-- Two hex digits of one byte: high nibble `b >> 4`, low nibble `b & 0x0f`. -/
def byteHex (b : Nat) : List Char :=
  [hexDigits.getD (b / 16) '0', hexDigits.getD (b % 16) '0']

/-- Lowercase-hex string of a byte list, two digits per byte. -/
def hexString (bs : List Nat) : String :=
  String.mk (bs.foldr (fun b acc => byteHex b ++ acc) [])

/-- The byte content of an ASCII string (the strings hashed by this
program are ASCII, where UTF-8 bytes coincide with code points). -/
def strBytes (s : String) : List Nat := s.data.map Char.toNat

/-- `Crop.ID`: the lowercase-hex MD5 digest of the canonical `%.2f`
formatting of the rectangle.  (`md5.Write` on a hash state never returns
an error in Go, so the error branch that degrades to `""` is dead.) -/
def Crop.id (c : Crop) : String := hexString (md5Sum (strBytes (Crop.string c)))

theorem md5Sum_length (msg : List Nat) : (md5Sum msg).length = 16 := by
  simp [md5Sum, le4]

theorem md5Sum_bytes_lt (msg : List Nat) : ∀ b ∈ md5Sum msg, b < 256 := by
  intro b hb
  simp [md5Sum, le4] at hb
  omega

theorem hexFold_length (bs : List Nat) :
    (bs.foldr (fun b acc => byteHex b ++ acc) []).length = 2 * bs.length := by
  induction bs with
  | nil => rfl
  | cons b bs ih =>
    simp only [List.foldr_cons, List.length_append, ih]
    simp only [byteHex, List.length_cons, List.length_nil]
    omega

theorem hexString_length (bs : List Nat) : (hexString bs).length = 2 * bs.length := by
  show (bs.foldr (fun b acc => byteHex b ++ acc) []).length = 2 * bs.length
  exact hexFold_length bs

theorem hexDigits_getD_mem (n : Nat) (h : n < 16) : hexDigits.getD n '0' ∈ hexDigits := by
  have hlen : n < hexDigits.length := by rw [hexDigits_length]; exact h
  rw [List.getD_eq_getElem hexDigits '0' hlen]
  exact List.getElem_mem hlen

theorem hexString_chars (bs : List Nat) (h : ∀ b ∈ bs, b < 256) :
    ∀ ch ∈ (hexString bs).data, ch ∈ hexDigits := by
  induction bs with
  | nil => intro ch hch; simp [hexString] at hch
  | cons b bs ih =>
    intro ch hch
    have hd : (hexString (b :: bs)).data = byteHex b ++ (hexString bs).data := rfl
    rw [hd] at hch
    rcases List.mem_append.mp hch with h1 | h2
    · have hb : b < 256 := h b (List.mem_cons_self b bs)
      simp only [byteHex, List.mem_cons, List.not_mem_nil, or_false] at h1
      rcases h1 with h1 | h1
      · rw [h1]; exact hexDigits_getD_mem (b / 16) (by omega)
      · rw [h1]; exact hexDigits_getD_mem (b % 16) (by omega)
    · exact ih (fun x hx => h x (List.mem_cons_of_mem b hx)) ch h2

theorem cropId_length (c : Crop) : (Crop.id c).length = 32 := by
  rw [Crop.id, hexString_length, md5Sum_length]

theorem cropId_chars (c : Crop) : ∀ ch ∈ (Crop.id c).data, ch ∈ hexDigits :=
  hexString_chars _ (md5Sum_bytes_lt _)

/-- **C5.** The crop identity hasher is a pure function of the formatted
rectangle (determinism is inherent: the model is a function), so two
rectangles whose four fields format identically at 2 decimal places have
equal identifiers; and the identifier — the lowercase-hex MD5 digest of
the canonical `crop(x=..,y=..,w=..,h=..)` string — consists of lowercase
hexadecimal digits. -/
theorem cropId_respects_2dp (r₁ r₂ : Crop)
    (hx : fmt2 r₁.x = fmt2 r₂.x) (hy : fmt2 r₁.y = fmt2 r₂.y)
    (hw : fmt2 r₁.width = fmt2 r₂.width) (hh : fmt2 r₁.height = fmt2 r₂.height) :
    Crop.id r₁ = Crop.id r₂ ∧ (Crop.id r₁).length = 32 ∧
      ∀ ch ∈ (Crop.id r₁).data, ch ∈ hexDigits := by
  have hs : Crop.string r₁ = Crop.string r₂ := by
    rw [Crop.string, Crop.string, hx, hy, hw, hh]
  exact ⟨by rw [Crop.id, Crop.id, hs], cropId_length r₁, cropId_chars r₁⟩

/-- Witness for C5 at the spec's example: `x = 0.1001` and `x = 0.1004`
format to the same two-decimal string, hence hash identically. -/
theorem cropId_respects_2dp_witness :
    Crop.id ⟨1001/10000, 1/10, 1/2, 1/2⟩ = Crop.id ⟨1004/10000, 1/10, 1/2, 1/2⟩ ∧
      (Crop.id ⟨1001/10000, 1/10, 1/2, 1/2⟩).length = 32 ∧
      ∀ ch ∈ (Crop.id ⟨1001/10000, 1/10, 1/2, 1/2⟩).data, ch ∈ hexDigits := by
  have h1 : roundHalfEven ((1001 : ℚ)/10000 * 100) = 10 := by
    have e : ((1001 : ℚ)/10000 * 100) = 1001/100 := by norm_num
    have hf : ⌊(1001 : ℚ)/100⌋ = 10 := by
      rw [Int.floor_eq_iff] <;> norm_num
    simp only [roundHalfEven, e, hf]
    norm_num
  have h2 : roundHalfEven ((1004 : ℚ)/10000 * 100) = 10 := by
    have e : ((1004 : ℚ)/10000 * 100) = 1004/100 := by norm_num
    have hf : ⌊(1004 : ℚ)/100⌋ = 10 := by
      rw [Int.floor_eq_iff] <;> norm_num
    simp only [roundHalfEven, e, hf]
    norm_num
  have hx : fmt2 ((1001 : ℚ)/10000) = fmt2 ((1004 : ℚ)/10000) := by
    simp only [fmt2, h1, h2]
    rw [if_neg (by norm_num : ¬ ((1001 : ℚ)/10000) < 0),
      if_neg (by norm_num : ¬ ((1004 : ℚ)/10000) < 0)]
  exact cropId_respects_2dp ⟨1001/10000, 1/10, 1/2, 1/2⟩ ⟨1004/10000, 1/10, 1/2, 1/2⟩
    hx rfl rfl rfl

/-! ### Output naming (`executeCrop`, part_001 line 152) -/

/-- `filepath.Base`: strip trailing separators, then keep everything after
the last separator; empty path gives `"."`, all-separator path gives
`"/"`. -/
def filepathBase (s : String) : String :=
  if s.data.isEmpty then "."
  else
    let t := (s.data.reverse.dropWhile (fun ch => ch = '/')).reverse
    if t.isEmpty then "/"
    else String.mk (t.reverse.takeWhile (fun ch => ch ≠ '/')).reverse

/-- `filepath.Join` for the nonempty, already-clean components used here. -/
def joinPath (a b : String) : String := a ++ "/" ++ b

/-- `fmt.Sprintf("%s-%s.jpg", filepath.Base(op.Filename), op.Crop.ID())`. -/
def cropNewName (filename : String) (c : Crop) : String :=
  filepathBase filename ++ "-" ++ Crop.id c ++ ".jpg"

/-- **C9 (counterexample).** The identifier segment of the output name is
not 16 characters: for the end-to-end scenario's rectangle it has the MD5
hex length, 32. -/
theorem cropId_not_16_chars :
    ¬ ((Crop.id ⟨1/10, 1/10, 1/2, 1/2⟩).length = 16) := by
  rw [cropId_length]
  omega

/-- **C9 (amended).** The single output file for source `photo.jpg` is
named `photo.jpg-<id>.jpg` where the identifier segment is exactly 32
lowercase hexadecimal characters (an MD5 digest in `%x` form), not 16. -/
theorem cropNewName_photo_shape (c : Crop) :
    cropNewName "photo.jpg" c = "photo.jpg" ++ "-" ++ Crop.id c ++ ".jpg" ∧
      (Crop.id c).length = 32 ∧ ∀ ch ∈ (Crop.id c).data, ch ∈ hexDigits := by
  refine ⟨?_, cropId_length c, cropId_chars c⟩
  rw [cropNewName]
  have hbase : filepathBase "photo.jpg" = "photo.jpg" := by decide
  rw [hbase]

/-! ## Operation model and batch executor (part_001)

The file system is an association list from full path to file content;
a write is a prepend (later entries shadow earlier ones, so a write
overwrites without removing paths), a read is the first match.  `os.Open`
fails exactly when the path is absent; `os.Create` and buffer writes are
modelled as always succeeding.  The `Cropper` interface is a function
from source content and rectangle to either cropped content or an
error. -/

/-- File system: `(path, content)` entries, most recent first. -/
abbrev FS := List (String × String)

/-- Paths present in the file system. -/
def fsPaths (fs : FS) : List String := fs.map Prod.fst

/-- `os.Open` + read: the first entry at the path, if any. -/
def fsRead (fs : FS) (p : String) : Option String := fs.lookup p

/-- The `Cropper` interface (`Crop(ctx, r, w, crop) error`), as a function
from the source bytes and rectangle to cropped bytes or an error. -/
abbrev CropperFn := String → Crop → Except String String

/-- A `crop` operation record. -/
structure CropOperation where
  filename : String
  crop : Crop

/-- A `pick` operation record. -/
structure PickOperation where
  filename : String

/-- The `Operation` tagged union: at most one variant populated. -/
structure Operation where
  crop : Option CropOperation
  pick : Option PickOperation

/-- The output path of a crop operation:
`filepath.Join(OutputDir, fmt.Sprintf("%s-%s.jpg", filepath.Base(filename), crop.ID()))`. -/
def cropTargetPath (outDir : String) (op : CropOperation) : String :=
  joinPath outDir (cropNewName op.filename op.crop)

/-- `executeCrop`: open the source under `BaseDir` (error if absent), run
the codec crop into a memory buffer (its error returned unchanged, before
any output file is created), then create the output file and write the
buffer. -/
def executeCrop (cropper : CropperFn) (baseDir outDir : String) (fs : FS)
    (op : CropOperation) : Except String Unit × FS :=
  match fsRead fs (joinPath baseDir op.filename) with
  | none => (.error ("failed to open file " ++ joinPath baseDir op.filename), fs)
  | some content =>
    match cropper content op.crop with
    | .error e => (.error e, fs)
    | .ok cropped => (.ok (), (cropTargetPath outDir op, cropped) :: fs)

/-- `executePick`: copy the source file byte-for-byte to the output
directory under its original name (error if the source is absent). -/
def executePick (baseDir outDir : String) (fs : FS) (op : PickOperation) :
    Except String Unit × FS :=
  match fsRead fs (joinPath baseDir op.filename) with
  | none => (.error ("failed to pick file " ++ op.filename), fs)
  | some content => (.ok (), (joinPath outDir op.filename, content) :: fs)

/-- `executeOperation`: dispatch on the populated variant; an operation
with neither variant is a silent no-op returning `nil`. -/
def executeOperation (cropper : CropperFn) (baseDir outDir : String) (fs : FS)
    (op : Operation) : Except String Unit × FS :=
  match op.crop with
  | some c => executeCrop cropper baseDir outDir fs c
  | none =>
    match op.pick with
    | some p => executePick baseDir outDir fs p
    | none => (.ok (), fs)

/-- The worker pool runs one task per operation and is not cancelled on a
sibling's error (`conc`'s `pool.WithErrors` without cancel-on-error), so
every operation is attempted; operations are independent, and the model
runs them in list order, collecting each task's result. -/
def execAll (cropper : CropperFn) (baseDir outDir : String) :
    List Operation → FS → FS × List (Except String Unit)
  | [], fs => (fs, [])
  | op :: ops, fs =>
    let step := executeOperation cropper baseDir outDir fs op
    let rest := execAll cropper baseDir outDir ops step.2
    (rest.1, step.1 :: rest.2)

/-- `pool.Wait()` under `WithErrors`: `nil` when no task failed, otherwise
the collected errors joined into one aggregate error. -/
def aggErr (rs : List (Except String Unit)) : Option String :=
  match rs.filterMap (fun r => match r with | .error e => some e | .ok _ => none) with
  | [] => none
  | es => some (String.intercalate "\n" es)

/-- `OperationExecutor.Exec`: an empty batch returns `nil` at once
(before the output directory is even created); otherwise every operation
runs and the aggregated error of the pool is returned.  (`os.MkdirAll` on
the output directory is modelled as succeeding.)  Returns the aggregate
error, the final file system, and the per-operation results. -/
def Exec (cropper : CropperFn) (baseDir outDir : String) (ops : List Operation)
    (fs : FS) : Option String × FS × List (Except String Unit) :=
  if ops.isEmpty then (none, fs, [])
  else
    let r := execAll cropper baseDir outDir ops fs
    (aggErr r.2, r.1, r.2)

/-- The output paths an operation writes on success. -/
def opOutputPaths (outDir : String) (op : Operation) : List String :=
  match op.crop with
  | some c => [cropTargetPath outDir c]
  | none =>
    match op.pick with
    | some p => [joinPath outDir p.filename]
    | none => []

theorem executeCrop_read_fail (cropper : CropperFn) (baseDir outDir : String)
    (fs : FS) (op : CropOperation)
    (h : fsRead fs (joinPath baseDir op.filename) = none) :
    executeCrop cropper baseDir outDir fs op =
      (.error ("failed to open file " ++ joinPath baseDir op.filename), fs) := by
  rw [executeCrop, h]

theorem executeCrop_codec_fail (cropper : CropperFn) (baseDir outDir : String)
    (fs : FS) (op : CropOperation) (content e : String)
    (h : fsRead fs (joinPath baseDir op.filename) = some content)
    (hc : cropper content op.crop = .error e) :
    executeCrop cropper baseDir outDir fs op = (.error e, fs) := by
  rw [executeCrop, h]
  show (match cropper content op.crop with
    | Except.error e => (Except.error e, fs)
    | Except.ok cropped => (Except.ok (), (cropTargetPath outDir op, cropped) :: fs)) =
    (Except.error e, fs)
  rw [hc]

theorem executeCrop_run_ok (cropper : CropperFn) (baseDir outDir : String)
    (fs : FS) (op : CropOperation) (content cropped : String)
    (h : fsRead fs (joinPath baseDir op.filename) = some content)
    (hc : cropper content op.crop = .ok cropped) :
    executeCrop cropper baseDir outDir fs op =
      (.ok (), (cropTargetPath outDir op, cropped) :: fs) := by
  rw [executeCrop, h]
  show (match cropper content op.crop with
    | Except.error e => (Except.error e, fs)
    | Except.ok cropped => (Except.ok (), (cropTargetPath outDir op, cropped) :: fs)) =
    (Except.ok (), (cropTargetPath outDir op, cropped) :: fs)
  rw [hc]

theorem executePick_read_fail (baseDir outDir : String) (fs : FS) (op : PickOperation)
    (h : fsRead fs (joinPath baseDir op.filename) = none) :
    executePick baseDir outDir fs op =
      (.error ("failed to pick file " ++ op.filename), fs) := by
  rw [executePick, h]

theorem executePick_run_ok (baseDir outDir : String) (fs : FS) (op : PickOperation)
    (content : String) (h : fsRead fs (joinPath baseDir op.filename) = some content) :
    executePick baseDir outDir fs op =
      (.ok (), (joinPath outDir op.filename, content) :: fs) := by
  rw [executePick, h]

theorem executeOperation_crop (cropper : CropperFn) (baseDir outDir : String)
    (fs : FS) (c : CropOperation) (pk : Option PickOperation) :
    executeOperation cropper baseDir outDir fs ⟨some c, pk⟩ =
      executeCrop cropper baseDir outDir fs c := rfl

theorem executeOperation_pick (cropper : CropperFn) (baseDir outDir : String)
    (fs : FS) (pk : PickOperation) :
    executeOperation cropper baseDir outDir fs ⟨none, some pk⟩ =
      executePick baseDir outDir fs pk := rfl

theorem executeOperation_nop (cropper : CropperFn) (baseDir outDir : String) (fs : FS) :
    executeOperation cropper baseDir outDir fs ⟨none, none⟩ = (.ok (), fs) := rfl

theorem executeOperation_mono (cropper : CropperFn) (baseDir outDir : String)
    (fs : FS) (op : Operation) (p : String) (hp : p ∈ fsPaths fs) :
    p ∈ fsPaths (executeOperation cropper baseDir outDir fs op).2 := by
  rcases op with ⟨crop, pick⟩
  rcases crop with _ | c
  · rcases pick with _ | pk
    · rw [executeOperation_nop]; exact hp
    · rw [executeOperation_pick]
      rcases h : fsRead fs (joinPath baseDir pk.filename) with _ | content
      · rw [executePick_read_fail baseDir outDir fs pk h]; exact hp
      · rw [executePick_run_ok baseDir outDir fs pk content h]
        exact List.mem_cons_of_mem _ hp
  · rw [executeOperation_crop]
    rcases h : fsRead fs (joinPath baseDir c.filename) with _ | content
    · rw [executeCrop_read_fail cropper baseDir outDir fs c h]; exact hp
    · rcases hc : cropper content c.crop with e | cropped
      · rw [executeCrop_codec_fail cropper baseDir outDir fs c content e h hc]; exact hp
      · rw [executeCrop_run_ok cropper baseDir outDir fs c content cropped h hc]
        exact List.mem_cons_of_mem _ hp

theorem executeOperation_ok_writes (cropper : CropperFn) (baseDir outDir : String)
    (fs : FS) (op : Operation)
    (hok : (executeOperation cropper baseDir outDir fs op).1 = .ok ()) :
    ∀ p ∈ opOutputPaths outDir op,
      p ∈ fsPaths (executeOperation cropper baseDir outDir fs op).2 := by
  intro p hp
  rcases op with ⟨crop, pick⟩
  rcases crop with _ | c
  · rcases pick with _ | pk
    · replace hp : p ∈ ([] : List String) := hp
      exact absurd hp (List.not_mem_nil p)
    · rw [executeOperation_pick] at hok ⊢
      replace hp : p ∈ [joinPath outDir pk.filename] := hp
      rcases h : fsRead fs (joinPath baseDir pk.filename) with _ | content
      · rw [executePick_read_fail baseDir outDir fs pk h] at hok
        simp at hok
      · rw [executePick_run_ok baseDir outDir fs pk content h]
        simp only [List.mem_singleton] at hp
        simp [fsPaths, hp]
  · rw [executeOperation_crop] at hok ⊢
    replace hp : p ∈ [cropTargetPath outDir c] := hp
    rcases h : fsRead fs (joinPath baseDir c.filename) with _ | content
    · rw [executeCrop_read_fail cropper baseDir outDir fs c h] at hok
      simp at hok
    · rcases hc : cropper content c.crop with e | cropped
      · rw [executeCrop_codec_fail cropper baseDir outDir fs c content e h hc] at hok
        simp at hok
      · rw [executeCrop_run_ok cropper baseDir outDir fs c content cropped h hc]
        simp only [List.mem_singleton] at hp
        simp [fsPaths, hp]

theorem execAll_length (cropper : CropperFn) (baseDir outDir : String)
    (ops : List Operation) (fs : FS) :
    (execAll cropper baseDir outDir ops fs).2.length = ops.length := by
  induction ops generalizing fs with
  | nil => rfl
  | cons op ops ih => simp [execAll, ih]

theorem execAll_mono (cropper : CropperFn) (baseDir outDir : String)
    (ops : List Operation) (fs : FS) (p : String) (hp : p ∈ fsPaths fs) :
    p ∈ fsPaths (execAll cropper baseDir outDir ops fs).1 := by
  induction ops generalizing fs with
  | nil => exact hp
  | cons op ops ih =>
    rw [execAll]
    exact ih _ (executeOperation_mono cropper baseDir outDir fs op p hp)

theorem execAll_ok_writes (cropper : CropperFn) (baseDir outDir : String)
    (ops : List Operation) (fs : FS) :
    ∀ pr ∈ (execAll cropper baseDir outDir ops fs).2.zip ops,
      pr.1 = .ok () → ∀ p ∈ opOutputPaths outDir pr.2,
        p ∈ fsPaths (execAll cropper baseDir outDir ops fs).1 := by
  induction ops generalizing fs with
  | nil => intro pr hpr; simp [execAll] at hpr
  | cons op ops ih =>
    intro pr hpr hok p hp
    rw [execAll] at hpr ⊢
    simp only [List.zip_cons_cons, List.mem_cons] at hpr
    rcases hpr with hpr | hpr
    · subst hpr
      exact execAll_mono cropper baseDir outDir ops _ p
        (executeOperation_ok_writes cropper baseDir outDir fs op hok p hp)
    · exact ih _ pr hpr hok p hp

theorem aggErr_isSome (rs : List (Except String Unit)) :
    (aggErr rs).isSome ↔ ∃ r ∈ rs, r ≠ .ok () := by
  rw [aggErr]
  rcases h : rs.filterMap
      (fun r => match r with | .error e => some e | .ok _ => none) with _ | ⟨e, es⟩
  · rw [h]
    show (none : Option String).isSome ↔ ∃ r ∈ rs, r ≠ .ok ()
    simp only [Option.isSome_none, Bool.false_eq_true, false_iff]
    intro ⟨r, hr, hne⟩
    rcases r with e | u
    · have : e ∈ rs.filterMap
          (fun r => match r with | .error e => some e | .ok _ => none) := by
        rw [List.mem_filterMap]
        exact ⟨.error e, hr, rfl⟩
      rw [h] at this
      simp at this
    · exact hne (by rfl)
  · rw [h]
    show (some (String.intercalate "\n" (e :: es))).isSome ↔ ∃ r ∈ rs, r ≠ .ok ()
    simp only [Option.isSome_some, true_iff]
    have : e ∈ rs.filterMap
        (fun r => match r with | .error e => some e | .ok _ => none) := by
      rw [h]; exact List.mem_cons_self e es
    rw [List.mem_filterMap] at this
    obtain ⟨r, hr, hre⟩ := this
    refine ⟨r, hr, ?_⟩
    rcases r with x | u
    · simp
    · simp at hre

/-- **C3.** For a non-empty batch, `Exec` attempts every operation (one
result per operation, a sibling's failure neither prevents nor cancels
the others), each successful operation's output file is present in the
final file system, and the aggregated error is non-nil if and only if at
least one operation failed. -/
theorem exec_attempts_all_and_aggregates (cropper : CropperFn) (baseDir outDir : String)
    (ops : List Operation) (fs : FS) (hne : ops ≠ []) :
    (Exec cropper baseDir outDir ops fs).2.2.length = ops.length ∧
      ((Exec cropper baseDir outDir ops fs).1.isSome ↔
        ∃ r ∈ (Exec cropper baseDir outDir ops fs).2.2, r ≠ .ok ()) ∧
      ∀ pr ∈ (Exec cropper baseDir outDir ops fs).2.2.zip ops,
        pr.1 = .ok () → ∀ p ∈ opOutputPaths outDir pr.2,
          p ∈ fsPaths (Exec cropper baseDir outDir ops fs).2.1 := by
  have hne' : ops.isEmpty = false := by
    rcases ops with _ | ⟨op, ops⟩
    · exact absurd rfl hne
    · rfl
  rw [Exec, hne']
  simp only [Bool.false_eq_true, if_false]
  exact ⟨execAll_length cropper baseDir outDir ops fs,
    aggErr_isSome _,
    execAll_ok_writes cropper baseDir outDir ops fs⟩

/-- Witness for C3: a two-operation batch over a file system holding only
`base/a.jpg`; the first pick targets a missing file and fails, the second
succeeds. -/
theorem exec_attempts_all_and_aggregates_witness :
    (Exec (fun s _ => .ok s) "base" "out"
        [⟨none, some ⟨"missing.jpg"⟩⟩, ⟨none, some ⟨"a.jpg"⟩⟩]
        [("base/a.jpg", "A")]).2.2.length = 2 ∧
      ((Exec (fun s _ => .ok s) "base" "out"
          [⟨none, some ⟨"missing.jpg"⟩⟩, ⟨none, some ⟨"a.jpg"⟩⟩]
          [("base/a.jpg", "A")]).1.isSome ↔
        ∃ r ∈ (Exec (fun s _ => .ok s) "base" "out"
            [⟨none, some ⟨"missing.jpg"⟩⟩, ⟨none, some ⟨"a.jpg"⟩⟩]
            [("base/a.jpg", "A")]).2.2, r ≠ .ok ()) ∧
      ∀ pr ∈ (Exec (fun s _ => .ok s) "base" "out"
          [⟨none, some ⟨"missing.jpg"⟩⟩, ⟨none, some ⟨"a.jpg"⟩⟩]
          [("base/a.jpg", "A")]).2.2.zip
            [⟨none, some ⟨"missing.jpg"⟩⟩, ⟨none, some ⟨"a.jpg"⟩⟩],
        pr.1 = .ok () → ∀ p ∈ opOutputPaths "out" pr.2,
          p ∈ fsPaths (Exec (fun s _ => .ok s) "base" "out"
            [⟨none, some ⟨"missing.jpg"⟩⟩, ⟨none, some ⟨"a.jpg"⟩⟩]
            [("base/a.jpg", "A")]).2.1 :=
  exec_attempts_all_and_aggregates (fun s _ => .ok s) "base" "out"
    [⟨none, some ⟨"missing.jpg"⟩⟩, ⟨none, some ⟨"a.jpg"⟩⟩]
    [("base/a.jpg", "A")] (by simp)

/-- **C4.** A successful crop writes exactly one new entry, at the path
formed from the output directory, the base name of the source filename,
the crop identifier and the fixed `.jpg` extension; two crop operations
on the same source whose rectangles format identically at 2 decimals
target the same output path (so a repeat crop overwrites rather than
duplicates). -/
theorem executeCrop_target_path (cropper : CropperFn) (baseDir outDir : String)
    (fs : FS) (op₁ op₂ : CropOperation) (hf : op₁.filename = op₂.filename)
    (hx : fmt2 op₁.crop.x = fmt2 op₂.crop.x) (hy : fmt2 op₁.crop.y = fmt2 op₂.crop.y)
    (hw : fmt2 op₁.crop.width = fmt2 op₂.crop.width)
    (hh : fmt2 op₁.crop.height = fmt2 op₂.crop.height) :
    (∀ fs', executeCrop cropper baseDir outDir fs op₁ = (.ok (), fs') →
        ∃ content, fs' = (cropTargetPath outDir op₁, content) :: fs) ∧
      cropTargetPath outDir op₁ = cropTargetPath outDir op₂ := by
  constructor
  · intro fs' hrun
    rcases h : fsRead fs (joinPath baseDir op₁.filename) with _ | content
    · rw [executeCrop_read_fail cropper baseDir outDir fs op₁ h] at hrun
      simp at hrun
    · rcases hc : cropper content op₁.crop with e | cropped
      · rw [executeCrop_codec_fail cropper baseDir outDir fs op₁ content e h hc] at hrun
        simp at hrun
      · rw [executeCrop_run_ok cropper baseDir outDir fs op₁ content cropped h hc] at hrun
        simp only [Prod.mk.injEq, true_and] at hrun
        exact ⟨cropped, hrun.symm⟩
  · have hid : Crop.id op₁.crop = Crop.id op₂.crop := by
      have hs : Crop.string op₁.crop = Crop.string op₂.crop := by
        rw [Crop.string, Crop.string, hx, hy, hw, hh]
      rw [Crop.id, Crop.id, hs]
    rw [cropTargetPath, cropTargetPath, cropNewName, cropNewName, hf, hid]

/-- Witness for C4: two crops of `a.jpg` with rectangles equal only after
two-decimal formatting (`w = 0.25` versus `w = 0.2503`) write to the same
output path. -/
theorem executeCrop_target_path_witness :
    (∀ fs', executeCrop (fun s _ => .ok s) "base" "out" [("base/a.jpg", "A")]
          ⟨"a.jpg", ⟨1/10, 1/10, 25/100, 1/2⟩⟩ = (.ok (), fs') →
        ∃ content, fs' =
          (cropTargetPath "out" ⟨"a.jpg", ⟨1/10, 1/10, 25/100, 1/2⟩⟩, content) ::
            [("base/a.jpg", "A")]) ∧
      cropTargetPath "out" ⟨"a.jpg", ⟨1/10, 1/10, 25/100, 1/2⟩⟩ =
        cropTargetPath "out" ⟨"a.jpg", ⟨1/10, 1/10, 2503/10000, 1/2⟩⟩ := by
  have h1 : roundHalfEven ((25 : ℚ)/100 * 100) = 25 := by
    have e : ((25 : ℚ)/100 * 100) = 25 := by norm_num
    have hf : ⌊(25 : ℚ)⌋ = 25 := by
      rw [Int.floor_eq_iff]
      constructor <;> norm_num
    simp only [roundHalfEven, e, hf]
    norm_num
  have h2 : roundHalfEven ((2503 : ℚ)/10000 * 100) = 25 := by
    have e : ((2503 : ℚ)/10000 * 100) = 2503/100 := by norm_num
    have hf : ⌊(2503 : ℚ)/100⌋ = 25 := by
      rw [Int.floor_eq_iff]
      constructor <;> norm_num
    simp only [roundHalfEven, e, hf]
    norm_num
  have hw : fmt2 ((25 : ℚ)/100) = fmt2 ((2503 : ℚ)/10000) := by
    simp only [fmt2, h1, h2]
    rw [if_neg (by norm_num : ¬ ((25 : ℚ)/100) < 0),
      if_neg (by norm_num : ¬ ((2503 : ℚ)/10000) < 0)]
  exact executeCrop_target_path (fun s _ => .ok s) "base" "out" [("base/a.jpg", "A")]
    ⟨"a.jpg", ⟨1/10, 1/10, 25/100, 1/2⟩⟩ ⟨"a.jpg", ⟨1/10, 1/10, 2503/10000, 1/2⟩⟩
    rfl rfl rfl hw rfl

/-- **C10.** When the codec's crop call fails, `executeCrop` returns that
error unchanged, before the output file is created: the file system is
exactly as before, so a failed crop leaves the output directory
untouched. -/
theorem executeCrop_codec_error_no_output (cropper : CropperFn) (baseDir outDir : String)
    (fs : FS) (op : CropOperation) (content : String) (e : String)
    (hread : fsRead fs (joinPath baseDir op.filename) = some content)
    (hcrop : cropper content op.crop = .error e) :
    executeCrop cropper baseDir outDir fs op = (.error e, fs) := by
  rw [executeCrop, hread]
  show (match cropper content op.crop with
    | Except.error e => (Except.error e, fs)
    | Except.ok cropped => (Except.ok (), (cropTargetPath outDir op, cropped) :: fs)) =
    (Except.error e, fs)
  rw [hcrop]

/-- Witness for C10: a cropper that always fails leaves the file system
unchanged and surfaces its error. -/
theorem executeCrop_codec_error_no_output_witness :
    executeCrop (fun _ _ => .error "boom") "base" "out" [("base/a.jpg", "A")]
        ⟨"a.jpg", ⟨1/10, 1/10, 1/2, 1/2⟩⟩ =
      (.error "boom", [("base/a.jpg", "A")]) :=
  executeCrop_codec_error_no_output (fun _ _ => .error "boom") "base" "out"
    [("base/a.jpg", "A")] ⟨"a.jpg", ⟨1/10, 1/10, 1/2, 1/2⟩⟩ "A" "boom" (by rfl) (by rfl)

/-! ## Operation decoding (`Operation.UnmarshalJSON`) and the record encoder

The decoder receives an already-parsed JSON value (the record level at
which `Operation.UnmarshalJSON` works).  Decoding into `struct { Type
string }` reads the `type` field — absent or `null` leaves the zero value
`""`, a non-string value is an unmarshal type error — then switches on it
exactly as the Go code does.  Numbers carry exact rationals, standing for
the `float64` values `encoding/json` produces. -/

/-- A parsed JSON value. -/
inductive JSON where
  | null
  | bool (b : Bool)
  | num (q : ℚ)
  | str (s : String)
  | arr (elems : List JSON)
  | obj (fields : List (String × JSON))

/-- Decode an object field into a Go `string`: absent or `null` leaves the
zero value, a string is taken as-is, anything else is a type error. -/
def decodeStrField (fields : List (String × JSON)) (k : String) : Except String String :=
  match fields.lookup k with
  | none => .ok ""
  | some .null => .ok ""
  | some (.str s) => .ok s
  | some _ => .error ("cannot unmarshal field " ++ k ++ " into Go string")

/-- Decode an object field into a Go `float64`: absent or `null` leaves
the zero value, a number is taken as-is, anything else is a type error. -/
def decodeNumField (fields : List (String × JSON)) (k : String) : Except String ℚ :=
  match fields.lookup k with
  | none => .ok 0
  | some .null => .ok 0
  | some (.num q) => .ok q
  | some _ => .error ("cannot unmarshal field " ++ k ++ " into Go float64")

/-- `json.Unmarshal(data, &op)` for `var op struct { Type string }`. -/
def decodeTypeField (j : JSON) : Except String String :=
  match j with
  | .obj f => decodeStrField f "type"
  | _ => .error "cannot unmarshal operation record into Go struct"

/-- Decode a JSON value into the `Crop` struct (fields `x`, `y`, `w`, `h`). -/
def decodeCropValue (v : JSON) : Except String Crop :=
  match v with
  | .null => .ok ⟨0, 0, 0, 0⟩
  | .obj f =>
    match decodeNumField f "x" with
    | .error e => .error e
    | .ok x =>
      match decodeNumField f "y" with
      | .error e => .error e
      | .ok y =>
        match decodeNumField f "w" with
        | .error e => .error e
        | .ok w =>
          match decodeNumField f "h" with
          | .error e => .error e
          | .ok h => .ok ⟨x, y, w, h⟩
  | _ => .error "cannot unmarshal crop into Go struct Crop"

/-- `json.Unmarshal(data, &crop)` for `CropOperation`. -/
def decodeCropOperation (j : JSON) : Except String CropOperation :=
  match j with
  | .obj f =>
    match decodeStrField f "filename" with
    | .error e => .error e
    | .ok filename =>
      match f.lookup "crop" with
      | none => .ok ⟨filename, ⟨0, 0, 0, 0⟩⟩
      | some v =>
        match decodeCropValue v with
        | .error e => .error e
        | .ok c => .ok ⟨filename, c⟩
  | _ => .error "cannot unmarshal into Go struct CropOperation"

/-- `json.Unmarshal(data, &pick)` for `PickOperation`. -/
def decodePickOperation (j : JSON) : Except String PickOperation :=
  match j with
  | .obj f =>
    match decodeStrField f "filename" with
    | .error e => .error e
    | .ok filename => .ok ⟨filename⟩
  | _ => .error "cannot unmarshal into Go struct PickOperation"

/-- The `switch op.Type` body of `Operation.UnmarshalJSON`. -/
def dispatchOperation (j : JSON) (t : String) : Except String Operation :=
  if t = "crop" then
    match decodeCropOperation j with
    | .error e => .error ("failed to unmarshal crop operation: " ++ e)
    | .ok c => .ok ⟨some c, none⟩
  else if t = "pick" then
    match decodePickOperation j with
    | .error e => .error ("failed to unmarshal pick operation: " ++ e)
    | .ok p => .ok ⟨none, some p⟩
  else .error ("unknown operation \"" ++ t ++ "\"")

/-- `Operation.UnmarshalJSON`: read the discriminant, then dispatch. -/
def decodeOperation (j : JSON) : Except String Operation :=
  match decodeTypeField j with
  | .error e => .error ("failed to unmarshal operation: " ++ e)
  | .ok t => dispatchOperation j t

theorem decodeOperation_typeErr (j : JSON) (e : String)
    (h : decodeTypeField j = .error e) :
    decodeOperation j = .error ("failed to unmarshal operation: " ++ e) := by
  rw [decodeOperation, h]

theorem decodeOperation_typeOk (j : JSON) (t : String)
    (h : decodeTypeField j = .ok t) :
    decodeOperation j = dispatchOperation j t := by
  rw [decodeOperation, h]

/-- **C6.** Decoding never silently defaults to a variant: an untyped
record whose discriminant is neither `"crop"` nor `"pick"` fails with an
error that names the offending discriminant; a record whose discriminant
is `"crop"` but whose `crop` field is malformed fails; and every
successfully decoded record populates exactly one of the two variants. -/
theorem decodeOperation_strict :
    (∀ (j : JSON) (t : String), decodeTypeField j = .ok t → t ≠ "crop" → t ≠ "pick" →
        decodeOperation j = .error ("unknown operation \"" ++ t ++ "\"")) ∧
      (∀ (f : List (String × JSON)) (v : JSON) (e : String),
        decodeTypeField (.obj f) = .ok "crop" → f.lookup "crop" = some v →
          decodeCropValue v = .error e →
            ∃ e', decodeOperation (.obj f) = .error e') ∧
      (∀ (j : JSON) (op : Operation), decodeOperation j = .ok op →
        (op.crop.isSome ∧ op.pick = none) ∨ (op.crop = none ∧ op.pick.isSome)) := by
  refine ⟨?_, ?_, ?_⟩
  · intro j t hT h1 h2
    rw [decodeOperation_typeOk j t hT, dispatchOperation, if_neg h1, if_neg h2]
  · intro f v e hT hl hv
    have hd : decodeOperation (.obj f) = dispatchOperation (.obj f) "crop" :=
      decodeOperation_typeOk _ _ hT
    rw [hd, dispatchOperation, if_pos rfl]
    rcases hs : decodeStrField f "filename" with e₂ | fn
    · refine ⟨"failed to unmarshal crop operation: " ++ e₂, ?_⟩
      have hc : decodeCropOperation (.obj f) = .error e₂ := by
        rw [decodeCropOperation, hs]
      rw [hc]
    · refine ⟨"failed to unmarshal crop operation: " ++ e, ?_⟩
      have hc : decodeCropOperation (.obj f) = .error e := by
        rw [decodeCropOperation, hs]
        show (match f.lookup "crop" with
          | none => Except.ok (⟨fn, ⟨0, 0, 0, 0⟩⟩ : CropOperation)
          | some v =>
            match decodeCropValue v with
            | .error e => .error e
            | .ok c => .ok ⟨fn, c⟩) = .error e
        rw [hl]
        show (match decodeCropValue v with
          | .error e => (.error e : Except String CropOperation)
          | .ok c => .ok ⟨fn, c⟩) = .error e
        rw [hv]
      rw [hc]
  · intro j op hok
    rcases hT : decodeTypeField j with e | t
    · rw [decodeOperation_typeErr j e hT] at hok
      simp at hok
    · rw [decodeOperation_typeOk j t hT, dispatchOperation] at hok
      by_cases h1 : t = "crop"
      · rw [if_pos h1] at hok
        rcases hC : decodeCropOperation j with e | c
        · rw [hC] at hok
          simp at hok
        · rw [hC] at hok
          replace hok : (Except.ok (⟨some c, none⟩ : Operation) : Except String Operation) =
            .ok op := hok
          simp only [Except.ok.injEq] at hok
          rw [← hok]
          exact Or.inl ⟨rfl, rfl⟩
      · rw [if_neg h1] at hok
        by_cases h2 : t = "pick"
        · rw [if_pos h2] at hok
          rcases hP : decodePickOperation j with e | p
          · rw [hP] at hok
            simp at hok
          · rw [hP] at hok
            replace hok : (Except.ok (⟨none, some p⟩ : Operation) : Except String Operation) =
              .ok op := hok
            simp only [Except.ok.injEq] at hok
            rw [← hok]
            exact Or.inr ⟨rfl, rfl⟩
        · rw [if_neg h2] at hok
          simp at hok

/-- Witness for C6: the record `{"type": "resize", "filename": "a.jpg"}`
is rejected with an error naming `resize`. -/
theorem decodeOperation_strict_witness :
    decodeOperation (.obj [("type", .str "resize"), ("filename", .str "a.jpg")]) =
      .error ("unknown operation \"" ++ "resize" ++ "\"") :=
  decodeOperation_strict.1 (.obj [("type", .str "resize"), ("filename", .str "a.jpg")])
    "resize" (by rfl) (by decide) (by decide)

/-- The serialized record form of a crop operation, as the front end
produces it for `/api/save` (static/main.js: `{type, filename, crop}` with
`crop = {x, y, w, h}`). -/
def encodeCropRecord (filename : String) (c : Crop) : JSON :=
  .obj [("type", .str "crop"), ("filename", .str filename),
    ("crop", .obj [("x", .num c.x), ("y", .num c.y),
      ("w", .num c.width), ("h", .num c.height)])]

/-- **C8.** Round-trip: encoding any crop operation to its serialized
record form and decoding it through `Operation.UnmarshalJSON` yields a
`Crop`-variant operation with the same filename and the same rectangle,
and no `Pick` variant. -/
theorem decode_encodeCropRecord (filename : String) (c : Crop) :
    decodeOperation (encodeCropRecord filename c) =
      .ok ⟨some ⟨filename, c⟩, none⟩ := rfl

/-! ## The codec capability (`ImagingCropper.Crop`)

The decode and encode calls of the imaging library are abstracted: the
decode of the source bytes either fails (propagated unchanged by the Go
code) or yields an auto-orientation-corrected image whose bounds are
`(0,0)–(W,H)`; the function below models everything the Go function does
after that decode, and the `encodedJPEG` outcome records the rectangle
actually cropped, the JPEG quality passed to the encoder, and that the
decode was performed with `imaging.AutoOrientation(true)`. -/

/-- `image.Rectangle` with `Min = (minX, minY)`, `Max = (maxX, maxY)`. -/
structure GoRect where
  minX : ℤ
  minY : ℤ
  maxX : ℤ
  maxY : ℤ
  deriving DecidableEq

/-- `Rectangle.Empty()`: no points inside. -/
def GoRect.emptyRect (r : GoRect) : Prop := r.maxX ≤ r.minX ∨ r.maxY ≤ r.minY

instance (r : GoRect) : Decidable r.emptyRect := by
  unfold GoRect.emptyRect
  infer_instance

/-- `Rectangle.In(s)`: every point of `r` is in `s` (an empty rectangle is
in every rectangle). -/
def GoRect.inRect (r s : GoRect) : Prop :=
  r.emptyRect ∨ (s.minX ≤ r.minX ∧ r.maxX ≤ s.maxX ∧ s.minY ≤ r.minY ∧ r.maxY ≤ s.maxY)

instance (r s : GoRect) : Decidable (r.inRect s) := by
  unfold GoRect.inRect
  infer_instance

/-- `Rectangle.Intersect(s)`: the largest rectangle contained in both;
the zero rectangle when the intersection is empty. -/
def GoRect.intersect (r s : GoRect) : GoRect :=
  let t : GoRect := ⟨max r.minX s.minX, max r.minY s.minY,
    min r.maxX s.maxX, min r.maxY s.maxY⟩
  if t.emptyRect then ⟨0, 0, 0, 0⟩ else t

/-- `image.Rect(x0, y0, x1, y1)`: swaps coordinates into canonical order. -/
def imageRect (x0 y0 x1 y1 : ℤ) : GoRect :=
  ⟨min x0 x1, min y0 y1, max x0 x1, max y0 y1⟩

/-- Go's `int(f)` conversion of the exact value: truncation toward zero. -/
def ratTrunc (q : ℚ) : ℤ := Int.tdiv q.num (q.den : ℤ)

/-- `x := int(crop.X * float64(imgWidth))` -/
def cropPixX (imgWidth : ℤ) (c : Crop) : ℤ := ratTrunc (c.x * (imgWidth : ℚ))

/-- `y := int(crop.Y * float64(imgHeight))` -/
def cropPixY (imgHeight : ℤ) (c : Crop) : ℤ := ratTrunc (c.y * (imgHeight : ℚ))

/-- `width := int(crop.Width * float64(imgWidth))` -/
def cropPixW (imgWidth : ℤ) (c : Crop) : ℤ := ratTrunc (c.width * (imgWidth : ℚ))

/-- `height := int(crop.Height * float64(imgHeight))` -/
def cropPixH (imgHeight : ℤ) (c : Crop) : ℤ := ratTrunc (c.height * (imgHeight : ℚ))

/-- The observable outcome of `ImagingCropper.Crop` after a successful
decode. -/
inductive CropOutcome where
  /-- "invalid crop dimensions: width=%d, height=%d" -/
  | invalidDims (w h : ℤ)
  /-- "crop rectangle is outside image bounds" -/
  | outOfBounds
  /-- `imaging.Crop(src, r)` then `imaging.Encode(w, ..., JPEG,
  JPEGQuality(quality))`; `orientationCorrected` records that the source
  was decoded with `imaging.AutoOrientation(true)`. -/
  | encodedJPEG (r : GoRect) (quality : Nat) (orientationCorrected : Bool)
  deriving DecidableEq

/-- `ImagingCropper.Crop` after decoding a source image with
auto-corrected orientation and bounds `(0,0)–(imgWidth,imgHeight)`. -/
def imagingCrop (imgWidth imgHeight : ℤ) (c : Crop) : CropOutcome :=
  let bounds : GoRect := ⟨0, 0, imgWidth, imgHeight⟩
  let x := cropPixX imgWidth c
  let y := cropPixY imgHeight c
  let w := cropPixW imgWidth c
  let h := cropPixH imgHeight c
  if w ≤ 0 ∨ h ≤ 0 then .invalidDims w h
  else
    let cropRect := imageRect x y (x + w) (y + h)
    if cropRect.inRect bounds then .encodedJPEG cropRect 90 true
    else
      let clipped := cropRect.intersect bounds
      if clipped.emptyRect then .outOfBounds
      else .encodedJPEG clipped 90 true

/-- **C7.** The codec call decodes with orientation auto-correction
before interpreting the fractions, clips the requested pixel rectangle to
the image bounds and never crops out of bounds (every encoded rectangle
is non-empty and lies inside `(0,0)–(W,H)`), rejects a clipped rectangle
that became empty with an error, rejects non-positive pixel dimensions
with an error, and encodes the result as JPEG at quality 90. -/
theorem imagingCrop_contract (W H : ℤ) (c : Crop) :
    (∀ r q o, imagingCrop W H c = .encodedJPEG r q o →
        q = 90 ∧ o = true ∧ 0 ≤ r.minX ∧ r.minX < r.maxX ∧ r.maxX ≤ W ∧
          0 ≤ r.minY ∧ r.minY < r.maxY ∧ r.maxY ≤ H) ∧
      (0 < cropPixW W c → 0 < cropPixH H c →
        ((imageRect (cropPixX W c) (cropPixY H c)
            (cropPixX W c + cropPixW W c) (cropPixY H c + cropPixH H c)).intersect
          ⟨0, 0, W, H⟩).emptyRect →
        imagingCrop W H c = .outOfBounds) ∧
      (cropPixW W c ≤ 0 ∨ cropPixH H c ≤ 0 →
        imagingCrop W H c = .invalidDims (cropPixW W c) (cropPixH H c)) := by
  simp only [imagingCrop]
  set x := cropPixX W c with hxdef
  set y := cropPixY H c with hydef
  set w := cropPixW W c with hwdef
  set h := cropPixH H c with hhdef
  refine ⟨?_, ?_, ?_⟩
  · intro r q o heq
    by_cases hd : w ≤ 0 ∨ h ≤ 0
    · rw [if_pos hd] at heq
      exact absurd heq (by simp)
    · rw [if_neg hd] at heq
      have hw0 : 0 < w := by omega
      have hh0 : 0 < h := by omega
      have hner : ¬ (imageRect x y (x + w) (y + h)).emptyRect := by
        simp only [imageRect, GoRect.emptyRect]
        omega
      by_cases hin : (imageRect x y (x + w) (y + h)).inRect ⟨0, 0, W, H⟩
      · rw [if_pos hin] at heq
        simp only [CropOutcome.encodedJPEG.injEq] at heq
        obtain ⟨hr, hq, ho⟩ := heq
        rcases hin with hemp | ⟨h1, h2, h3, h4⟩
        · exact absurd hemp hner
        · refine ⟨hq.symm, ho.symm, ?_⟩
          rw [← hr]
          simp only [imageRect] at h1 h2 h3 h4 ⊢
          omega
      · rw [if_neg hin] at heq
        by_cases hemp : ((imageRect x y (x + w) (y + h)).intersect ⟨0, 0, W, H⟩).emptyRect
        · rw [if_pos hemp] at heq
          exact absurd heq (by simp)
        · rw [if_neg hemp] at heq
          simp only [CropOutcome.encodedJPEG.injEq] at heq
          obtain ⟨hr, hq, ho⟩ := heq
          refine ⟨hq.symm, ho.symm, ?_⟩
          rw [← hr]
          simp only [GoRect.intersect, imageRect] at hemp ⊢
          by_cases hte : (GoRect.mk (max (min x (x + w)) 0) (max (min y (y + h)) 0)
              (min (max x (x + w)) W) (min (max y (y + h)) H)).emptyRect
          · rw [if_pos hte] at hemp
            exact absurd (Or.inl le_rfl) hemp
          · rw [if_neg hte] at hemp ⊢
            simp only [GoRect.emptyRect, not_or, not_le] at hemp
            simp only []
            omega
  · intro hw0 hh0 hemp
    rw [if_neg (by omega : ¬ (w ≤ 0 ∨ h ≤ 0))]
    by_cases hin : (imageRect x y (x + w) (y + h)).inRect ⟨0, 0, W, H⟩
    · exfalso
      rcases hin with hemp' | ⟨h1, h2, h3, h4⟩
      · simp only [imageRect, GoRect.emptyRect] at hemp'
        omega
      · simp only [imageRect] at h1 h2 h3 h4
        have hte : ¬ (GoRect.mk (max (min x (x + w)) 0) (max (min y (y + h)) 0)
            (min (max x (x + w)) W) (min (max y (y + h)) H)).emptyRect := by
          simp only [GoRect.emptyRect, not_or, not_le]
          omega
        simp only [GoRect.intersect, imageRect] at hemp
        rw [if_neg hte] at hemp
        exact hte hemp
    · rw [if_neg hin, if_pos hemp]
  · intro hd
    rw [if_pos hd]

/-- Witness for C7: on a 1200×800 image, the rectangle
`{x:0.1, y:0.1, w:0.5, h:0.5}` is cropped as pixels `(120,80)–(720,480)`,
in bounds, encoded at JPEG quality 90 after orientation correction. -/
theorem imagingCrop_contract_witness :
    imagingCrop 1200 800 ⟨1/10, 1/10, 1/2, 1/2⟩ =
        .encodedJPEG ⟨120, 80, 720, 480⟩ 90 true ∧
      ((90 : Nat) = 90 ∧ true = true ∧ (0 : ℤ) ≤ 120 ∧ (120 : ℤ) < 720 ∧
        (720 : ℤ) ≤ 1200 ∧ (0 : ℤ) ≤ 80 ∧ (80 : ℤ) < 480 ∧ (480 : ℤ) ≤ 800) := by
  have hx : cropPixX 1200 ⟨1/10, 1/10, 1/2, 1/2⟩ = 120 := by
    show ratTrunc ((1/10 : ℚ) * ((1200 : ℤ) : ℚ)) = 120
    rw [show ((1/10 : ℚ) * ((1200 : ℤ) : ℚ)) = (120 : ℚ) by norm_num]
    decide
  have hy : cropPixY 800 ⟨1/10, 1/10, 1/2, 1/2⟩ = 80 := by
    show ratTrunc ((1/10 : ℚ) * ((800 : ℤ) : ℚ)) = 80
    rw [show ((1/10 : ℚ) * ((800 : ℤ) : ℚ)) = (80 : ℚ) by norm_num]
    decide
  have hw : cropPixW 1200 ⟨1/10, 1/10, 1/2, 1/2⟩ = 600 := by
    show ratTrunc ((1/2 : ℚ) * ((1200 : ℤ) : ℚ)) = 600
    rw [show ((1/2 : ℚ) * ((1200 : ℤ) : ℚ)) = (600 : ℚ) by norm_num]
    decide
  have hh : cropPixH 800 ⟨1/10, 1/10, 1/2, 1/2⟩ = 400 := by
    show ratTrunc ((1/2 : ℚ) * ((800 : ℤ) : ℚ)) = 400
    rw [show ((1/2 : ℚ) * ((800 : ℤ) : ℚ)) = (400 : ℚ) by norm_num]
    decide
  have heq : imagingCrop 1200 800 ⟨1/10, 1/10, 1/2, 1/2⟩ =
      .encodedJPEG ⟨120, 80, 720, 480⟩ 90 true := by
    simp only [imagingCrop, hx, hy, hw, hh]
    decide
  refine ⟨heq, ?_⟩
  exact (imagingCrop_contract 1200 800 ⟨1/10, 1/10, 1/2, 1/2⟩).1
    ⟨120, 80, 720, 480⟩ 90 true heq

/-- Witness for the amended C9 shape at the end-to-end scenario's
rectangle. -/
theorem cropNewName_photo_shape_witness :
    cropNewName "photo.jpg" ⟨1/10, 1/10, 1/2, 1/2⟩ =
        "photo.jpg" ++ "-" ++ Crop.id ⟨1/10, 1/10, 1/2, 1/2⟩ ++ ".jpg" ∧
      (Crop.id ⟨1/10, 1/10, 1/2, 1/2⟩).length = 32 ∧
      ∀ ch ∈ (Crop.id ⟨1/10, 1/10, 1/2, 1/2⟩).data, ch ∈ hexDigits :=
  cropNewName_photo_shape ⟨1/10, 1/10, 1/2, 1/2⟩

end Pickemall
